import Mathlib

/-!
Verification of the chat client's Conversation State Engine.

The definitions below are a shallow embedding of the TypeScript sources:

* the Redux store slice (session list, messages, tag selection, loading
  flags) from the chat slice reducers;
* the synchronous prefix of the send path from the chat application
  component;
* the incremental typing reveal scheduler from the typing hook;
* the debounced auto-follow scroll controller from the resize-observer hook.

JavaScript optional booleans (absent or false) are modelled by their
truthiness as plain booleans; environment-supplied values such as
generated ids, timestamps and pseudo-random samples are explicit
parameters of each operation.
-/

namespace ChatSpec

/-- Role of a chat message: user-authored or model-authored. -/
inductive Role
  | user
  | model
  deriving DecidableEq

/-- An image: stable path key and an opaque data payload string. -/
structure ChatImage where
  path : String
  data : String
  deriving DecidableEq

/-- A chat message as stored in the slice. Optional booleans of the source
are modelled by their truthiness (absent means false). -/
structure ChatMessage where
  id : String
  role : Role
  content : String
  images : List ChatImage
  animated : Bool
  typed : Bool
  createdAt : Nat
  deriving DecidableEq

/-- One chat session, mirroring the slice's session record. -/
structure Session where
  id : String
  title : String
  prev_context : String
  was_context_valid_old : Bool
  is_follow_up_old : Bool
  related_images : List String
  messages : List ChatMessage
  createdAt : Nat
  updatedAt : Nat
  loading : Bool
  isNew : Bool
  deriving DecidableEq

/-- The whole store state of the chat slice. -/
structure ChatState where
  sessions : List Session
  activeSessionId : Option String
  deriving DecidableEq

/-- The greeting context a fresh session starts with. -/
def DEFAULT_GREETING : String :=
  "Hello! I'm ready to help. Ask me anything to start this chat."

/-- The initial store state: no sessions, no active id. -/
def initialState : ChatState := { sessions := [], activeSessionId := none }

/-- Mirrors the JS idiom of finding the first element with a given key and
mutating it in place: replace the first element whose key equals k by its
image under f, leaving everything else untouched. -/
def updateFirstBy {α : Type} (key : α → String) (k : String) (f : α → α) :
    List α → List α
  | [] => []
  | x :: xs => if key x = k then f x :: xs else x :: updateFirstBy key k f xs

/-- Builds the session record the slice's createNewSession factory returns;
the generated id and the clock reading are explicit parameters. -/
def createNewSession (id : String) (now : Nat) (title : Option String) : Session :=
  { id := id
    title := title.getD "New Chat"
    prev_context := DEFAULT_GREETING
    was_context_valid_old := true
    is_follow_up_old := true
    related_images := []
    messages := []
    createdAt := now
    updatedAt := now
    loading := false
    isNew := true }

/-- Reducer bootstrapFirstSession: only when the active id is falsy and the
session list is empty, push one session titled First Chat and activate it. -/
def bootstrapFirstSession (id : String) (now : Nat) (st : ChatState) : ChatState :=
  if (st.activeSessionId = none ∨ st.activeSessionId = some "") ∧ st.sessions = [] then
    let s := createNewSession id now (some "First Chat")
    { sessions := st.sessions ++ [s], activeSessionId := some s.id }
  else st

/-- Reducer addSession: unshift a fresh session and make it active. -/
def addSession (id : String) (now : Nat) (title : Option String) (st : ChatState) :
    ChatState :=
  let s := createNewSession id now title
  { sessions := s :: st.sessions, activeSessionId := some s.id }

/-- Reducer switchSession: activate the target id only when a session with
that id exists. -/
def switchSession (sid : String) (st : ChatState) : ChatState :=
  match st.sessions.find? (fun s => s.id == sid) with
  | some _ => { st with activeSessionId := some sid }
  | none => st

/-- Reducer removeSession: drop every session with the given id; when the
active session was removed, re-point the active id at the first remaining
session, or none. -/
def removeSession (sid : String) (st : ChatState) : ChatState :=
  let remaining := st.sessions.filter (fun s => !(s.id == sid))
  { sessions := remaining
    activeSessionId :=
      if st.activeSessionId = some sid then remaining.head?.map (fun s => s.id)
      else st.activeSessionId }

/-- The user message record the addUserMessage reducer appends. -/
def mkUserMessage (content : String) (images : List ChatImage) (msgId : String)
    (now : Nat) : ChatMessage :=
  { id := msgId, role := Role.user, content := content, images := images,
    animated := false, typed := false, createdAt := now }

/-- Per-session effect of addUserMessage. -/
def userMsgUpd (content : String) (images : List ChatImage) (msgId : String)
    (now : Nat) (s : Session) : Session :=
  { s with
    messages := s.messages ++ [mkUserMessage content images msgId now]
    updatedAt := now }

/-- Reducer addUserMessage: append a user message to the addressed session;
silently does nothing when the session id is absent. -/
def addUserMessage (sid content : String) (images : List ChatImage)
    (msgId : String) (now : Nat) (st : ChatState) : ChatState :=
  { st with
    sessions := updateFirstBy Session.id sid
      (userMsgUpd content images msgId now) st.sessions }

/-- Per-session effect of addModelMessage. -/
def modelMsgUpd (content : String) (images : List ChatImage) (typedFlag : Bool)
    (msgId : String) (now : Nat) (s : Session) : Session :=
  { s with
    messages := s.messages ++
      [{ id := msgId, role := Role.model, content := content, images := images,
         animated := false, typed := typedFlag, createdAt := now }]
    updatedAt := now }

/-- Reducer addModelMessage: append a model message with a caller-supplied
typed flag; silently does nothing when the session id is absent. -/
def addModelMessage (sid content : String) (images : List ChatImage)
    (typedFlag : Bool) (msgId : String) (now : Nat) (st : ChatState) : ChatState :=
  { st with
    sessions := updateFirstBy Session.id sid
      (modelMsgUpd content images typedFlag msgId now) st.sessions }

/-- The optional fields a setSessionMeta action may carry. -/
structure MetaPatch where
  prev_context : Option String := none
  was_context_valid_old : Option Bool := none
  is_follow_up_old : Option Bool := none
  related_images : Option (List String) := none
  title : Option String := none
  deriving DecidableEq

/-- Per-session effect of setSessionMeta. -/
def metaUpd (p : MetaPatch) (now : Nat) (s : Session) : Session :=
  { s with
    prev_context := p.prev_context.getD s.prev_context
    was_context_valid_old := p.was_context_valid_old.getD s.was_context_valid_old
    is_follow_up_old := p.is_follow_up_old.getD s.is_follow_up_old
    related_images := p.related_images.getD s.related_images
    title := p.title.getD s.title
    updatedAt := now }

/-- Reducer setSessionMeta: merge any subset of the meta fields. -/
def setSessionMeta (sid : String) (p : MetaPatch) (now : Nat) (st : ChatState) :
    ChatState :=
  { st with
    sessions := updateFirstBy Session.id sid (metaUpd p now) st.sessions }

/-- Per-session effect of setSessionStatus. -/
def statusUpd (now : Nat) (s : Session) : Session :=
  { s with isNew := false, updatedAt := now }

/-- Reducer setSessionStatus: clear the isNew flag. -/
def setSessionStatus (sid : String) (now : Nat) (st : ChatState) : ChatState :=
  { st with
    sessions := updateFirstBy Session.id sid (statusUpd now) st.sessions }

/-- The list-level toggle the toggleTaggedImage reducer performs: remove the
first occurrence of the path when present (indexOf plus splice), otherwise
push it at the end. -/
def toggleTagList (l : List String) (path : String) : List String :=
  if path ∈ l then l.erase path else l ++ [path]

/-- Per-session effect of toggleTaggedImage. -/
def toggleUpd (path : String) (now : Nat) (s : Session) : Session :=
  { s with
    related_images := toggleTagList s.related_images path
    updatedAt := now }

/-- Reducer toggleTaggedImage: toggle the path in the session's tag list. -/
def toggleTaggedImage (sid path : String) (now : Nat) (st : ChatState) : ChatState :=
  { st with
    sessions := updateFirstBy Session.id sid (toggleUpd path now) st.sessions }

/-- Per-session effect of clearTaggedImages. -/
def clearUpd (now : Nat) (s : Session) : Session :=
  { s with related_images := [], updatedAt := now }

/-- Reducer clearTaggedImages: empty the tag list. -/
def clearTaggedImages (sid : String) (now : Nat) (st : ChatState) : ChatState :=
  { st with
    sessions := updateFirstBy Session.id sid (clearUpd now) st.sessions }

/-- Per-session effect of setSessionLoading. -/
def loadingUpd (loading : Bool) (now : Nat) (s : Session) : Session :=
  { s with loading := loading, updatedAt := now }

/-- Reducer setSessionLoading: set the loading flag. -/
def setSessionLoading (sid : String) (loading : Bool) (now : Nat) (st : ChatState) :
    ChatState :=
  { st with
    sessions := updateFirstBy Session.id sid (loadingUpd loading now) st.sessions }

/-- Per-session effect of markMessageTyped: set the typed flag on the
message when it exists, and unconditionally clear the loading flag. -/
def typedUpd (mid : String) (s : Session) : Session :=
  { s with
    messages := updateFirstBy ChatMessage.id mid
      (fun m => { m with typed := true }) s.messages
    loading := false }

/-- Reducer markMessageTyped: when the session exists, set the typed flag on
the message when it exists, and unconditionally clear the session's loading
flag. Neither timestamp is touched. -/
def markMessageTyped (sid mid : String) (st : ChatState) : ChatState :=
  { st with
    sessions := updateFirstBy Session.id sid (typedUpd mid) st.sessions }

/-- Per-session effect of markMessageAnimated. -/
def animatedUpd (mid : String) (s : Session) : Session :=
  { s with
    messages := updateFirstBy ChatMessage.id mid
      (fun m => { m with animated := true }) s.messages }

/-- Reducer markMessageAnimated: when both session and message exist, set
the animated flag; nothing else changes. -/
def markMessageAnimated (sid mid : String) (st : ChatState) : ChatState :=
  { st with
    sessions := updateFirstBy Session.id sid (animatedUpd mid) st.sessions }

/-- The store operations, one constructor per reducer; environment inputs
(generated ids, clock readings) are constructor arguments. -/
inductive Op
  | bootstrapFirstSession (id : String) (now : Nat)
  | addSession (id : String) (now : Nat) (title : Option String)
  | switchSession (sid : String)
  | removeSession (sid : String)
  | addUserMessage (sid content : String) (images : List ChatImage)
      (msgId : String) (now : Nat)
  | addModelMessage (sid content : String) (images : List ChatImage)
      (typedFlag : Bool) (msgId : String) (now : Nat)
  | setSessionMeta (sid : String) (p : MetaPatch) (now : Nat)
  | setSessionStatus (sid : String) (now : Nat)
  | toggleTaggedImage (sid path : String) (now : Nat)
  | clearTaggedImages (sid : String) (now : Nat)
  | setSessionLoading (sid : String) (loading : Bool) (now : Nat)
  | markMessageTyped (sid mid : String)
  | markMessageAnimated (sid mid : String)

/-- Apply one store operation. -/
def applyOp (o : Op) (st : ChatState) : ChatState :=
  match o with
  | .bootstrapFirstSession id now => bootstrapFirstSession id now st
  | .addSession id now title => addSession id now title st
  | .switchSession sid => switchSession sid st
  | .removeSession sid => removeSession sid st
  | .addUserMessage sid content images msgId now =>
      addUserMessage sid content images msgId now st
  | .addModelMessage sid content images typedFlag msgId now =>
      addModelMessage sid content images typedFlag msgId now st
  | .setSessionMeta sid p now => setSessionMeta sid p now st
  | .setSessionStatus sid now => setSessionStatus sid now st
  | .toggleTaggedImage sid path now => toggleTaggedImage sid path now st
  | .clearTaggedImages sid now => clearTaggedImages sid now st
  | .setSessionLoading sid loading now => setSessionLoading sid loading now st
  | .markMessageTyped sid mid => markMessageTyped sid mid st
  | .markMessageAnimated sid mid => markMessageAnimated sid mid st

/-- Apply a sequence of store operations, oldest first. -/
def applyOps (ops : List Op) (st : ChatState) : ChatState :=
  ops.foldl (fun s o => applyOp o s) st

/-- The session id an operation addresses, when it addresses one. -/
def Op.target : Op → Option String
  | .bootstrapFirstSession _ _ => none
  | .addSession _ _ _ => none
  | .switchSession sid => some sid
  | .removeSession sid => some sid
  | .addUserMessage sid _ _ _ _ => some sid
  | .addModelMessage sid _ _ _ _ _ => some sid
  | .setSessionMeta sid _ _ => some sid
  | .setSessionStatus sid _ => some sid
  | .toggleTaggedImage sid _ _ => some sid
  | .clearTaggedImages sid _ => some sid
  | .setSessionLoading sid _ _ => some sid
  | .markMessageTyped sid _ => some sid
  | .markMessageAnimated sid _ => some sid

/-- Look up a session by id (first match, as the JS find does). -/
def getSession? (st : ChatState) (sid : String) : Option Session :=
  st.sessions.find? (fun s => s.id == sid)

/-- Look up a message by session id and message id (first matches). -/
def getMessage? (st : ChatState) (sid mid : String) : Option ChatMessage :=
  (getSession? st sid).bind fun s => s.messages.find? (fun m => m.id == mid)

/-- Resolution of a tagged image id at send time: scan the session's
messages in order and return the first image whose path matches; when no
message carries a match, fall back to the empty-shaped image. -/
def resolveTagged (msgs : List ChatMessage) (path : String) : ChatImage :=
  match msgs with
  | [] => { path := "", data := "" }
  | m :: rest =>
    match m.images.find? (fun img => img.path == path) with
    | some found => { path := found.path, data := found.data }
    | none => resolveTagged rest path

/-- The request body the send path posts to the backend. -/
structure RequestPayload where
  prev_context : String
  message_history : List (Role × String)
  query : String
  was_context_valid_old : Bool
  is_follow_up_old : Bool
  related_images : List String
  deriving DecidableEq

/-- The synchronous prefix of the send path: guard against a missing or
loading session, then set loading, resolve the tagged images against the
pre-send snapshot, clear the tags, append the user message, and build the
request payload from the snapshot. Returns the new store state and the
payload, or the unchanged state and none when the send was rejected. -/
def sendMessageSync (st : ChatState) (sid text msgId : String) (now : Nat) :
    ChatState × Option RequestPayload :=
  match st.sessions.find? (fun s => s.id == sid) with
  | none => (st, none)
  | some session =>
    if session.loading then (st, none)
    else
      let userImages :=
        (session.related_images.map (fun p => resolveTagged session.messages p)).filter
          (fun it => !(it.path == ""))
      let st1 := setSessionLoading sid true now st
      let st2 := clearTaggedImages sid now st1
      let st3 := addUserMessage sid text userImages msgId now st2
      (st3,
        some
          { prev_context := session.prev_context
            message_history := session.messages.map (fun m => (m.role, m.content))
            query := text
            was_context_valid_old := session.was_context_valid_old
            is_follow_up_old := session.is_follow_up_old
            related_images := session.related_images })

/-- A concrete session used by several witnesses below. -/
def demoSession : Session :=
  { id := "s1"
    title := "Demo"
    prev_context := DEFAULT_GREETING
    was_context_valid_old := true
    is_follow_up_old := true
    related_images := ["p1", "p2"]
    messages :=
      [{ id := "m1", role := Role.user, content := "hello",
         images := [{ path := "p1", data := "AAA" }], animated := true,
         typed := false, createdAt := 1 },
       { id := "m2", role := Role.model, content := "hi",
         images := [{ path := "p2", data := "BBB" }], animated := false,
         typed := true, createdAt := 2 }]
    createdAt := 0
    updatedAt := 2
    loading := true
    isNew := false }

/-- A concrete store state with one loading session. -/
def demoState : ChatState :=
  { sessions := [demoSession], activeSessionId := some "s1" }

/-- The store invariant the session-lifecycle operations maintain: whenever
an active session id is set, a session with that id is present. -/
def activeIdConsistent (st : ChatState) : Prop :=
  ∀ i, st.activeSessionId = some i → i ∈ st.sessions.map Session.id

/-- The id of the session that follows the given one in the list order, when
there is one: the reading of next-in-order used by the removal claim. -/
def nextInOrder (ss : List Session) (sid : String) : Option String :=
  match ss with
  | [] => none
  | s :: rest => if s.id = sid then rest.head?.map (fun x => x.id) else nextInOrder rest sid

/-- Base per-character delay of the typing reveal, keyed by the character
just revealed; before any character is revealed there is no such character
and the default base applies. -/
def baseDelay (c : Option Char) : ℚ :=
  match c with
  | none => 12
  | some c =>
    if c = '.' ∨ c = '!' ∨ c = '?' then 100
    else if c = ',' ∨ c = ';' then 40
    else if c = ' ' then 8
    else if c = '\n' then 60
    else 12

/-- The delay actually used: the base perturbed by a pseudo-random sample
drawn from the unit interval, scaled exactly as the source scales it. -/
def perturbedDelay (c : Option Char) (rand : ℚ) : ℚ :=
  baseDelay c + (rand - 1 / 2) * baseDelay c * (1 / 4)

/-- Local state of one typing-reveal hook instance. The dispatch counter
counts how many times the settle store mutation has been dispatched. -/
structure TypingState where
  charIndex : Nat
  typedText : List Char
  prevTime : ℚ
  isTypingComplete : Bool
  showImages : Bool
  dispatchedMark : Bool
  dispatchCount : Nat
  deriving DecidableEq

/-- The state the hook's effect resets to for a new unsettled model message;
the clock reading at effect start is a parameter. -/
def initTyping (t0 : ℚ) : TypingState :=
  { charIndex := 0
    typedText := []
    prevTime := t0
    isTypingComplete := false
    showImages := false
    dispatchedMark := false
    dispatchCount := 0 }

/-- The character indexed just below the cursor, mirroring the JS read of
content at index charIndex minus one (undefined below zero). -/
def currentCharOf (content : List Char) (charIndex : Nat) : Option Char :=
  if charIndex = 0 then none else content.get? (charIndex - 1)

/-- One animation-frame step of the reveal loop: advance the cursor by one
character when the elapsed time satisfies the perturbed delay; when the
cursor has reached the end, set the full text, flag completion, and stop
rescheduling (second component false). -/
def typingStep (content : List Char) (st : TypingState) (time rand : ℚ) :
    TypingState × Bool :=
  let delay := perturbedDelay (currentCharOf content st.charIndex) rand
  let st' :=
    if delay ≤ time - st.prevTime then
      { st with
        charIndex := st.charIndex + 1
        typedText := content.take (st.charIndex + 1)
        prevTime := time }
    else st
  if st'.charIndex < content.length then (st', true)
  else ({ st' with typedText := content, isTypingComplete := true }, false)

/-- The settle timeout that runs after typing completes: with images, only
reveal them; with no images, dispatch the settle mutation unless the
one-shot guard was already taken. -/
def settleAfterTyping (images : List ChatImage) (st : TypingState) : TypingState :=
  if images.length ≠ 0 then { st with showImages := true }
  else if st.dispatchedMark = false then
    { st with dispatchedMark := true, dispatchCount := st.dispatchCount + 1 }
  else st

/-- The image-reveal completion callback: dispatch the settle mutation only
when the guard is untaken, the message is not already settled, and the
session and message ids are present. -/
def imageRevealComplete (typedFlag hasIds : Bool) (st : TypingState) : TypingState :=
  if st.dispatchedMark = false ∧ typedFlag = false ∧ hasIds = true then
    { st with dispatchedMark := true, dispatchCount := st.dispatchCount + 1 }
  else st

/-- Drive the reveal loop over a finite schedule of frames, each delivering
a clock reading and a pseudo-random sample; stops early when the loop
signals completion. Second component: whether completion was reached. -/
def runTicks (content : List Char) : TypingState → List (ℚ × ℚ) → TypingState × Bool
  | st, [] => (st, false)
  | st, (t, r) :: rest =>
    match typingStep content st t r with
    | (st', true) => runTicks content st' rest
    | (st', false) => (st', true)

/-- State of one auto-follow controller instance: the current enabled flag
(the mutable ref mirroring is-at-bottom), the pending debounce timer if any,
a fresh-timer-id source, and a count of scroll commands issued. -/
structure ScrollState where
  enabled : Bool
  pending : Option Nat
  nextTimer : Nat
  scrolls : Nat
  deriving DecidableEq

/-- Events the auto-follow controller reacts to: the enabled flag changing,
a size-change notification, and a scheduled timer firing. -/
inductive ScrollEvent
  | setEnabled (b : Bool)
  | notify
  | fire (id : Nat)
  deriving DecidableEq

/-- One controller transition. A notification while disabled returns early.
A notification while enabled cancels the pending timer and schedules a
fresh one. A timer fires only while it is the pending one (a cleared timer
never fires); at that instant a scroll command is issued only when the
enabled flag currently holds. -/
def scrollStep (st : ScrollState) : ScrollEvent → ScrollState
  | .setEnabled b => { st with enabled := b }
  | .notify =>
    if st.enabled then
      { st with pending := some st.nextTimer, nextTimer := st.nextTimer + 1 }
    else st
  | .fire id =>
    if st.pending = some id then
      { st with
        pending := none
        scrolls := if st.enabled then st.scrolls + 1 else st.scrolls }
    else st

/-- Timer-id freshness invariant of the controller state. -/
def scrollInv (st : ScrollState) : Prop :=
  ∀ id, st.pending = some id → id < st.nextTimer

/-- Three sessions in list order B, A, C with A active: reachable, and the
state on which the removal-promotion claim is decided. -/
def c4State : ChatState :=
  applyOps
    [Op.addSession "C" 0 none, Op.addSession "A" 1 none, Op.addSession "B" 2 none,
     Op.switchSession "A"]
    initialState

/-- A state with one session whose loading flag is set, used to decide the
missing-message-id behaviour of the settle mutation. -/
def c5State : ChatState :=
  { sessions :=
      [{ id := "s1"
         title := "Chat"
         prev_context := DEFAULT_GREETING
         was_context_valid_old := true
         is_follow_up_old := true
         related_images := []
         messages :=
           [{ id := "m1", role := Role.model, content := "hi", images := [],
              animated := false, typed := false, createdAt := 1 }]
         createdAt := 0
         updatedAt := 1
         loading := true
         isNew := false }]
    activeSessionId := some "s1" }

/-- An idle session that tags an image id no message can resolve. -/
def c7Session : Session :=
  { id := "s1"
    title := "Chat"
    prev_context := DEFAULT_GREETING
    was_context_valid_old := true
    is_follow_up_old := true
    related_images := ["p1"]
    messages := []
    createdAt := 0
    updatedAt := 0
    loading := false
    isNew := false }

/-- A state with one idle session that tags an image id no message can
resolve, used to decide the send-time resolution claim. -/
def c7State : ChatState :=
  { sessions := [c7Session], activeSessionId := some "s1" }

/-- Replacing the first element with an absent key changes nothing. -/
theorem updateFirstBy_of_not_mem {α : Type} (key : α → String) (k : String)
    (f : α → α) (l : List α) (h : ∀ x ∈ l, key x ≠ k) :
    updateFirstBy key k f l = l := by
  induction l with
  | nil => rfl
  | cons x xs ih =>
    simp only [updateFirstBy]
    rw [if_neg (h x (by simp)), ih (fun y hy => h y (by simp [hy]))]

/-- A key-preserving first-match replacement keeps the key sequence. -/
theorem updateFirstBy_map_key {α : Type} (key : α → String) (k : String)
    (f : α → α) (hf : ∀ x, key (f x) = key x) (l : List α) :
    (updateFirstBy key k f l).map key = l.map key := by
  induction l with
  | nil => rfl
  | cons x xs ih =>
    simp only [updateFirstBy]
    by_cases h : key x = k
    · simp [h, hf]
    · simp [h, ih]

/-- How a first-match lookup reads through a key-preserving first-match
replacement: at the replaced key it sees the image under f of what it saw
before; at any other key it sees exactly what it saw before. -/
theorem find?_updateFirstBy {α : Type} (key : α → String) (k j : String)
    (f : α → α) (hf : ∀ x, key (f x) = key x) (l : List α) :
    (updateFirstBy key k f l).find? (fun x => key x == j) =
      if j = k then (l.find? (fun x => key x == k)).map f
      else l.find? (fun x => key x == j) := by
  induction l with
  | nil => simp [updateFirstBy]
  | cons x xs ih =>
    by_cases hxk : key x = k
    · simp only [updateFirstBy, if_pos hxk]
      by_cases hjk : j = k
      · subst hjk
        rw [if_pos rfl]
        rw [List.find?_cons_of_pos _ (by simp [hf, hxk]),
          List.find?_cons_of_pos _ (by simp [hxk])]
        rfl
      · rw [if_neg hjk]
        rw [List.find?_cons_of_neg _ (by simp [hf, hxk]; exact fun h => hjk h.symm),
          List.find?_cons_of_neg _ (by simp [hxk]; exact fun h => hjk h.symm)]
    · simp only [updateFirstBy, if_neg hxk]
      by_cases hxj : key x = j
      · have hjk : ¬ j = k := fun h => hxk (hxj.trans h)
        rw [if_neg hjk]
        rw [List.find?_cons_of_pos _ (by simp [hxj]),
          List.find?_cons_of_pos _ (by simp [hxj])]
      · by_cases hjk : j = k
        · subst hjk
          rw [if_pos rfl]
          rw [List.find?_cons_of_neg _ (by simp [hxj]),
            List.find?_cons_of_neg _ (by simp [hxj])]
          rw [ih, if_pos rfl]
        · rw [if_neg hjk]
          rw [List.find?_cons_of_neg _ (by simp [hxj]),
            List.find?_cons_of_neg _ (by simp [hxj])]
          rw [ih, if_neg hjk]

/-- Filtering by a predicate implied by the search predicate does not change
the first match found. -/
theorem find?_filter_of_imp {α : Type} (p q : α → Bool) (l : List α)
    (h : ∀ x, p x = true → q x = true) :
    (l.filter q).find? p = l.find? p := by
  induction l with
  | nil => rfl
  | cons x xs ih =>
    by_cases hq : q x = true
    · rw [List.filter_cons_of_pos hq]
      by_cases hp : p x = true
      · rw [List.find?_cons_of_pos _ hp, List.find?_cons_of_pos _ hp]
      · rw [List.find?_cons_of_neg _ hp, List.find?_cons_of_neg _ hp]
        exact ih
    · have hp : ¬ p x = true := fun hp => hq (h x hp)
      rw [List.filter_cons_of_neg (by simpa using hq), List.find?_cons_of_neg _ hp]
      exact ih

/-- A first match in the left part of an append is the first match of the
whole append. -/
theorem find?_append_left {α : Type} (p : α → Bool) (l₁ l₂ : List α) (a : α)
    (h : l₁.find? p = some a) : (l₁ ++ l₂).find? p = some a := by
  induction l₁ with
  | nil => simp at h
  | cons x xs ih =>
    by_cases hp : p x = true
    · rw [List.find?_cons_of_pos _ hp] at h
      rw [List.cons_append, List.find?_cons_of_pos _ hp]
      exact h
    · rw [List.find?_cons_of_neg _ hp] at h
      rw [List.cons_append, List.find?_cons_of_neg _ hp]
      exact ih h

/-- An id-preserving first-match session update keeps the invariant. -/
theorem activeIdConsistent_updateFirst (st : ChatState)
    (h : activeIdConsistent st) (sid : String) (f : Session → Session)
    (hf : ∀ s, (f s).id = s.id) :
    activeIdConsistent
      { st with sessions := updateFirstBy Session.id sid f st.sessions } := by
  intro i hi
  simp only at hi ⊢
  rw [updateFirstBy_map_key Session.id sid f hf]
  exact h i hi

/-- Each store operation preserves the active-id consistency invariant. -/
theorem activeIdConsistent_applyOp (o : Op) (st : ChatState)
    (h : activeIdConsistent st) : activeIdConsistent (applyOp o st) := by
  cases o with
  | bootstrapFirstSession id now =>
    simp only [applyOp, bootstrapFirstSession]
    split
    · intro i hi
      simp only [Option.some.injEq] at hi
      exact List.mem_map.mpr
        ⟨createNewSession id now (some "First Chat"),
         List.mem_append_right _ (List.mem_singleton.mpr rfl), hi⟩
    · exact h
  | addSession id now title =>
    intro i hi
    simp only [applyOp, addSession, Option.some.injEq] at hi
    exact List.mem_map.mpr ⟨createNewSession id now title, List.mem_cons_self _ _, hi⟩
  | switchSession sid =>
    simp only [applyOp, switchSession]
    cases hf : st.sessions.find? (fun s => s.id == sid) with
    | none => exact h
    | some s =>
      intro i hi
      simp only [Option.some.injEq] at hi
      subst hi
      have hmem := List.mem_of_find?_eq_some hf
      have hp := List.find?_some hf
      simp only [beq_iff_eq] at hp
      exact List.mem_map.mpr ⟨s, hmem, hp⟩
  | removeSession sid =>
    intro i hi
    simp only [applyOp, removeSession] at hi ⊢
    by_cases hact : st.activeSessionId = some sid
    · rw [if_pos hact] at hi
      cases hrem : (st.sessions.filter (fun s => !(s.id == sid))).head? with
      | none => rw [hrem] at hi; exact absurd hi (by simp)
      | some r =>
        rw [hrem] at hi
        simp only [Option.map_some', Option.some.injEq] at hi
        subst hi
        exact List.mem_map.mpr ⟨r, List.mem_of_mem_head? (by rw [hrem]; rfl), rfl⟩
    · rw [if_neg hact] at hi
      have hmem := h i hi
      have hne : i ≠ sid := by
        intro hcontra
        exact hact (hcontra ▸ hi)
      rcases List.mem_map.mp hmem with ⟨s, hs, hsid⟩
      exact List.mem_map.mpr
        ⟨s, List.mem_filter.mpr ⟨hs, by simp [hsid, hne]⟩, hsid⟩
  | addUserMessage sid content images msgId now =>
    refine activeIdConsistent_updateFirst st h sid _ ?_
    intro s; rfl
  | addModelMessage sid content images typedFlag msgId now =>
    refine activeIdConsistent_updateFirst st h sid _ ?_
    intro s; rfl
  | setSessionMeta sid p now =>
    refine activeIdConsistent_updateFirst st h sid _ ?_
    intro s; rfl
  | setSessionStatus sid now =>
    refine activeIdConsistent_updateFirst st h sid _ ?_
    intro s; rfl
  | toggleTaggedImage sid path now =>
    refine activeIdConsistent_updateFirst st h sid _ ?_
    intro s; rfl
  | clearTaggedImages sid now =>
    refine activeIdConsistent_updateFirst st h sid _ ?_
    intro s; rfl
  | setSessionLoading sid b now =>
    refine activeIdConsistent_updateFirst st h sid _ ?_
    intro s; rfl
  | markMessageTyped sid mid =>
    refine activeIdConsistent_updateFirst st h sid _ ?_
    intro s; rfl
  | markMessageAnimated sid mid =>
    refine activeIdConsistent_updateFirst st h sid _ ?_
    intro s; rfl

/-- Claim C10: in every store state reachable from the initial state by the
named operations, the active session id is either unset or the id of a
session present in the list. -/
theorem C10_active_id_always_valid (ops : List Op) :
    activeIdConsistent (applyOps ops initialState) := by
  have hgen : ∀ (l : List Op) (st : ChatState),
      activeIdConsistent st → activeIdConsistent (applyOps l st) := by
    intro l
    induction l with
    | nil => intro st hst; exact hst
    | cons o rest ih =>
      intro st hst
      exact ih (applyOp o st) (activeIdConsistent_applyOp o st hst)
  exact hgen ops initialState (by intro i hi; simp [initialState] at hi)

/-- Claim C1: a send attempted while the addressed session's loading flag is
true is rejected outright: no message is appended, no request payload is
built, and the store state is returned completely unchanged. -/
theorem C1_send_rejected_while_loading (st : ChatState) (sid text msgId : String)
    (now : Nat) (s : Session)
    (hfind : st.sessions.find? (fun x => x.id == sid) = some s)
    (hload : s.loading = true) :
    sendMessageSync st sid text msgId now = (st, none) := by
  unfold sendMessageSync
  rw [hfind]
  simp [hload]

/-- Witness for C1 at a concrete loading state. -/
theorem C1_send_rejected_while_loading_witness :
    sendMessageSync demoState "s1" "again" "m3" 7 = (demoState, none) :=
  C1_send_rejected_while_loading demoState "s1" "again" "m3" 7 demoSession
    (by decide) (by decide)

/-- Session lookup through an id-preserving first-match session update: the
addressed id reads the updated session, every other id reads unchanged. -/
theorem getSession?_updateFirst (st : ChatState) (sid : String)
    (f : Session → Session) (hf : ∀ s, (f s).id = s.id) :
    getSession? { st with sessions := updateFirstBy Session.id sid f st.sessions } sid
      = (getSession? st sid).map f ∧
    ∀ j, j ≠ sid →
      getSession? { st with sessions := updateFirstBy Session.id sid f st.sessions } j
        = getSession? st j := by
  constructor
  · simp only [getSession?]
    rw [find?_updateFirstBy Session.id sid sid f hf]
    rw [if_pos rfl]
  · intro j hj
    simp only [getSession?]
    rw [find?_updateFirstBy Session.id sid j f hf]
    rw [if_neg hj]

/-- Claim C4 counterexample: in the reachable state with sessions in list
order B, A, C and A active, the session following A in order is C, yet
removing A promotes B, not C. -/
theorem C4_counterexample :
    nextInOrder c4State.sessions "A" = some "C" ∧
    (removeSession "A" c4State).activeSessionId = some "B" ∧
    ("B" : String) ≠ "C" :=
  ⟨by decide, by decide, by decide⟩

/-- Claim C4 as amended: removing the active session promotes the first
remaining session in list order (or none when no session remains); removing
a non-active session leaves the active id unchanged. -/
theorem C4_removal_promotes_head_of_remaining (st : ChatState) (sid : String) :
    (st.activeSessionId = some sid →
        ((removeSession sid st).sessions = [] →
            (removeSession sid st).activeSessionId = none) ∧
        (∀ s rest, (removeSession sid st).sessions = s :: rest →
            (removeSession sid st).activeSessionId = some s.id)) ∧
    (st.activeSessionId ≠ some sid →
        (removeSession sid st).activeSessionId = st.activeSessionId) := by
  constructor
  · intro hact
    constructor
    · intro hrem
      simp only [removeSession] at hrem ⊢
      rw [if_pos hact, hrem]
      rfl
    · intro s rest hrem
      simp only [removeSession] at hrem ⊢
      rw [if_pos hact, hrem]
      rfl
  · intro hact
    simp only [removeSession]
    rw [if_neg hact]

/-- Witness for the amended C4: promotion to the head of the remainder and
stability under removal of a non-active id, at the concrete B, A, C state. -/
theorem C4_removal_promotes_head_of_remaining_witness :
    (removeSession "A" c4State).activeSessionId = some "B" ∧
    (removeSession "X" c4State).activeSessionId = some "A" := by
  have h1 := C4_removal_promotes_head_of_remaining c4State "A"
  have h2 := C4_removal_promotes_head_of_remaining c4State "X"
  constructor
  · exact (h1.1 (by decide)).2 (createNewSession "B" 2 none)
      [createNewSession "C" 0 none] (by decide)
  · exact h2.2 (by decide)

/-- Claim C5 counterexample: markMessageTyped addressed at an existing
session but a message id that does not exist is not a no-op: it flips the
session's loading flag from true to false. -/
theorem C5_counterexample :
    applyOp (Op.markMessageTyped "s1" "zz") c5State ≠ c5State ∧
    (getSession? c5State "s1").map Session.loading = some true ∧
    (getSession? (applyOp (Op.markMessageTyped "s1" "zz") c5State) "s1").map
        Session.loading = some false :=
  ⟨by decide, by decide, by decide⟩

/-- Claim C5 as amended: every store operation addressed at a session id
absent from a consistent state is a complete no-op (nothing is thrown by
construction, the state is returned unchanged); markMessageTyped addressed
at an existing session but an absent message id leaves the session's
message list and every other session untouched, but still clears that
session's loading flag. -/
theorem C5_missing_id_is_noop_except_loading :
    (∀ (o : Op) (st : ChatState) (sid : String), activeIdConsistent st →
        o.target = some sid → sid ∉ st.sessions.map Session.id →
        applyOp o st = st) ∧
    (∀ (st : ChatState) (sid mid : String) (s : Session),
        getSession? st sid = some s →
        mid ∉ s.messages.map ChatMessage.id →
        getSession? (markMessageTyped sid mid st) sid
            = some { s with loading := false } ∧
        (markMessageTyped sid mid st).activeSessionId = st.activeSessionId ∧
        ∀ j, j ≠ sid →
          getSession? (markMessageTyped sid mid st) j = getSession? st j) := by
  constructor
  · intro o st sid hcons htgt habs
    have habs' : ∀ x ∈ st.sessions, x.id ≠ sid := by
      intro x hx hix
      exact habs (List.mem_map.mpr ⟨x, hx, hix⟩)
    cases o with
    | bootstrapFirstSession id now => exact absurd htgt (by simp [Op.target])
    | addSession id now title => exact absurd htgt (by simp [Op.target])
    | switchSession sid' =>
      simp only [Op.target, Option.some.injEq] at htgt
      subst sid'
      have hnone : st.sessions.find? (fun s => s.id == sid) = none :=
        List.find?_eq_none.mpr (fun x hx => by simp [habs' x hx])
      simp only [applyOp, switchSession, hnone]
    | removeSession sid' =>
      simp only [Op.target, Option.some.injEq] at htgt
      subst sid'
      have hfilter : st.sessions.filter (fun s => !(s.id == sid)) = st.sessions :=
        List.filter_eq_self.mpr (fun x hx => by simp [habs' x hx])
      have hactne : ¬ st.activeSessionId = some sid := by
        intro hc
        exact habs (hcons sid hc)
      simp only [applyOp, removeSession]
      rw [hfilter, if_neg hactne]
    | addUserMessage sid' content images msgId now =>
      simp only [Op.target, Option.some.injEq] at htgt
      subst sid'
      simp only [applyOp, addUserMessage]
      rw [updateFirstBy_of_not_mem Session.id sid _ st.sessions habs']
    | addModelMessage sid' content images typedFlag msgId now =>
      simp only [Op.target, Option.some.injEq] at htgt
      subst sid'
      simp only [applyOp, addModelMessage]
      rw [updateFirstBy_of_not_mem Session.id sid _ st.sessions habs']
    | setSessionMeta sid' p now =>
      simp only [Op.target, Option.some.injEq] at htgt
      subst sid'
      simp only [applyOp, setSessionMeta]
      rw [updateFirstBy_of_not_mem Session.id sid _ st.sessions habs']
    | setSessionStatus sid' now =>
      simp only [Op.target, Option.some.injEq] at htgt
      subst sid'
      simp only [applyOp, setSessionStatus]
      rw [updateFirstBy_of_not_mem Session.id sid _ st.sessions habs']
    | toggleTaggedImage sid' path now =>
      simp only [Op.target, Option.some.injEq] at htgt
      subst sid'
      simp only [applyOp, toggleTaggedImage]
      rw [updateFirstBy_of_not_mem Session.id sid _ st.sessions habs']
    | clearTaggedImages sid' now =>
      simp only [Op.target, Option.some.injEq] at htgt
      subst sid'
      simp only [applyOp, clearTaggedImages]
      rw [updateFirstBy_of_not_mem Session.id sid _ st.sessions habs']
    | setSessionLoading sid' b now =>
      simp only [Op.target, Option.some.injEq] at htgt
      subst sid'
      simp only [applyOp, setSessionLoading]
      rw [updateFirstBy_of_not_mem Session.id sid _ st.sessions habs']
    | markMessageTyped sid' mid =>
      simp only [Op.target, Option.some.injEq] at htgt
      subst sid'
      simp only [applyOp, markMessageTyped]
      rw [updateFirstBy_of_not_mem Session.id sid _ st.sessions habs']
    | markMessageAnimated sid' mid =>
      simp only [Op.target, Option.some.injEq] at htgt
      subst sid'
      simp only [applyOp, markMessageAnimated]
      rw [updateFirstBy_of_not_mem Session.id sid _ st.sessions habs']
  · intro st sid mid s hs habs
    have habs' : ∀ m ∈ s.messages, m.id ≠ mid := by
      intro m hm him
      exact habs (List.mem_map.mpr ⟨m, hm, him⟩)
    have hu := getSession?_updateFirst st sid (typedUpd mid) (fun _ => rfl)
    refine ⟨?_, rfl, hu.2⟩
    show getSession? { st with
        sessions := updateFirstBy Session.id sid (typedUpd mid) st.sessions } sid = _
    rw [hu.1, hs]
    simp only [Option.map_some', Option.some.injEq]
    simp only [typedUpd]
    rw [updateFirstBy_of_not_mem ChatMessage.id mid _ s.messages habs']

/-- Witness for the amended C5: a concrete absent-session no-op and the
concrete loading-only effect of a missing message id. -/
theorem C5_missing_id_is_noop_except_loading_witness :
    applyOp (Op.switchSession "nope") c5State = c5State ∧
    (getSession? (markMessageTyped "s1" "zz" c5State) "s1").map Session.loading
      = some false := by
  have h := C5_missing_id_is_noop_except_loading
  constructor
  · refine h.1 (Op.switchSession "nope") c5State "nope" ?_ rfl (by decide)
    intro i hi
    have hi1 : i = "s1" := by simpa [c5State] using hi.symm
    subst hi1
    decide
  · have hb := (h.2 c5State "s1" "zz"
      { id := "s1"
        title := "Chat"
        prev_context := DEFAULT_GREETING
        was_context_valid_old := true
        is_follow_up_old := true
        related_images := []
        messages :=
          [{ id := "m1", role := Role.model, content := "hi", images := [],
             animated := false, typed := false, createdAt := 1 }]
        createdAt := 0
        updatedAt := 1
        loading := true
        isNew := false } (by decide) (by decide)).1
    rw [hb]
    rfl

/-- A found message stays the first match after binding through some. -/
theorem eq_of_bind_find? {s : Session} {mid : String} {m m' : ChatMessage}
    (hmsg : s.messages.find? (fun x => x.id == mid) = some m)
    (hm' : (Option.some s).bind
        (fun t => t.messages.find? (fun x => x.id == mid)) = some m') :
    m' = m := by
  simp only [Option.some_bind] at hm'
  rw [hmsg] at hm'
  exact (Option.some.inj hm').symm

/-- Where a message looked up after an id-preserving first-match session
update comes from: either the lookup is in an unaddressed session and reads
the old message, or it reads the first match inside the updated session. -/
theorem getMessage?_updateFirst (st : ChatState) (sid₂ : String)
    (g : Session → Session) (hg : ∀ s, (g s).id = s.id)
    (sid mid : String) (m m' : ChatMessage) (s : Session)
    (hs : getSession? st sid = some s)
    (hmsg : s.messages.find? (fun x => x.id == mid) = some m)
    (hm' : (getSession?
        { st with sessions := updateFirstBy Session.id sid₂ g st.sessions } sid).bind
        (fun t => t.messages.find? (fun x => x.id == mid)) = some m') :
    m' = m ∨ (g s).messages.find? (fun x => x.id == mid) = some m' := by
  by_cases hsid : sid = sid₂
  · subst hsid
    right
    rw [(getSession?_updateFirst st sid g hg).1, hs] at hm'
    simpa using hm'
  · left
    rw [(getSession?_updateFirst st sid₂ g hg).2 sid hsid, hs] at hm'
    exact eq_of_bind_find? hmsg hm'

/-- Where a message looked up after an id-preserving first-match message
update comes from: the old first match, either unchanged or updated. -/
theorem find?_message_updateFirst (mid₂ mid : String)
    (h : ChatMessage → ChatMessage) (hh : ∀ x, (h x).id = x.id)
    (msgs : List ChatMessage) (m m' : ChatMessage)
    (hmsg : msgs.find? (fun x => x.id == mid) = some m)
    (hm' : (updateFirstBy ChatMessage.id mid₂ h msgs).find?
        (fun x => x.id == mid) = some m') :
    m' = m ∨ m' = h m := by
  rw [find?_updateFirstBy ChatMessage.id mid₂ mid h hh] at hm'
  by_cases hmm : mid = mid₂
  · rw [if_pos hmm] at hm'
    subst hmm
    rw [hmsg] at hm'
    right
    exact (Option.some.inj hm').symm
  · rw [if_neg hmm] at hm'
    rw [hmsg] at hm'
    left
    exact (Option.some.inj hm').symm

/-- Claim C2: the settlement flags are monotonic. Across every store
operation, a message that was typed stays typed and a message that was
animated stays animated, as long as the message is still addressable; no
operation ever resets either flag to false. A false-to-true transition can
therefore happen at most once per message. -/
theorem C2_settlement_flags_monotonic (o : Op) (st : ChatState)
    (sid mid : String) (m m' : ChatMessage)
    (hm : getMessage? st sid mid = some m)
    (hm' : getMessage? (applyOp o st) sid mid = some m') :
    (m.typed = true → m'.typed = true) ∧
    (m.animated = true → m'.animated = true) := by
  simp only [getMessage?] at hm hm'
  rcases Option.bind_eq_some.mp hm with ⟨s, hs, hmsg⟩
  cases o with
  | bootstrapFirstSession id now =>
    simp only [applyOp, bootstrapFirstSession] at hm'
    by_cases hcond :
        (st.activeSessionId = none ∨ st.activeSessionId = some "") ∧ st.sessions = []
    · rw [if_pos hcond] at hm'
      simp only [getSession?] at hs
      rw [hcond.2] at hs
      simp at hs
    · rw [if_neg hcond] at hm'
      rw [hs] at hm'
      have he := eq_of_bind_find? hmsg hm'
      subst he
      exact ⟨fun h => h, fun h => h⟩
  | addSession id now title =>
    simp only [applyOp, addSession, getSession?] at hm'
    by_cases hnid : id = sid
    · rw [List.find?_cons_of_pos _ (by simp [createNewSession, hnid])] at hm'
      simp [createNewSession] at hm'
    · rw [List.find?_cons_of_neg _ (by simp [createNewSession, hnid])] at hm'
      simp only [getSession?] at hs
      rw [hs] at hm'
      have he := eq_of_bind_find? hmsg hm'
      subst he
      exact ⟨fun h => h, fun h => h⟩
  | switchSession sid₂ =>
    simp only [applyOp, switchSession] at hm'
    cases hf : st.sessions.find? (fun s => s.id == sid₂) with
    | none =>
      simp only [hf] at hm'
      rw [hs] at hm'
      have he := eq_of_bind_find? hmsg hm'
      subst he
      exact ⟨fun h => h, fun h => h⟩
    | some s₂ =>
      simp only [hf, getSession?] at hm'
      simp only [getSession?] at hs
      rw [hs] at hm'
      have he := eq_of_bind_find? hmsg hm'
      subst he
      exact ⟨fun h => h, fun h => h⟩
  | removeSession sid₂ =>
    simp only [applyOp, removeSession, getSession?] at hm'
    simp only [getSession?] at hs
    by_cases hsid : sid = sid₂
    · subst hsid
      have hnone : (st.sessions.filter (fun s => !(s.id == sid))).find?
          (fun s => s.id == sid) = none := by
        apply List.find?_eq_none.mpr
        intro x hx
        have hq := (List.mem_filter.mp hx).2
        simp only [Bool.not_eq_true', beq_eq_false_iff_ne, ne_eq] at hq
        simp [hq]
      rw [hnone] at hm'
      simp at hm'
    · have himp : ∀ x : Session, (x.id == sid) = true → (!(x.id == sid₂)) = true := by
        intro x hpx
        simp only [beq_iff_eq] at hpx
        simp [hpx, hsid]
      rw [find?_filter_of_imp _ _ st.sessions himp] at hm'
      rw [hs] at hm'
      have he := eq_of_bind_find? hmsg hm'
      subst he
      exact ⟨fun h => h, fun h => h⟩
  | addUserMessage sid₂ content images msgId now =>
    simp only [applyOp, addUserMessage] at hm'
    rcases getMessage?_updateFirst st sid₂ (userMsgUpd content images msgId now)
        (fun _ => rfl) sid mid m m' s hs hmsg hm' with he | hf
    · subst he
      exact ⟨fun h => h, fun h => h⟩
    · have hf2 : (s.messages ++ [mkUserMessage content images msgId now]).find?
          (fun x => x.id == mid) = some m' := hf
      rw [find?_append_left _ _ _ m hmsg] at hf2
      have he := Option.some.inj hf2
      subst he
      exact ⟨fun h => h, fun h => h⟩
  | addModelMessage sid₂ content images typedFlag msgId now =>
    simp only [applyOp, addModelMessage] at hm'
    rcases getMessage?_updateFirst st sid₂ (modelMsgUpd content images typedFlag msgId now)
        (fun _ => rfl) sid mid m m' s hs hmsg hm' with he | hf
    · subst he
      exact ⟨fun h => h, fun h => h⟩
    · have hf2 : (s.messages ++
          [({ id := msgId, role := Role.model, content := content, images := images,
              animated := false, typed := typedFlag, createdAt := now } : ChatMessage)]).find?
          (fun x => x.id == mid) = some m' := hf
      rw [find?_append_left _ _ _ m hmsg] at hf2
      have he := Option.some.inj hf2
      subst he
      exact ⟨fun h => h, fun h => h⟩
  | setSessionMeta sid₂ p now =>
    simp only [applyOp, setSessionMeta] at hm'
    rcases getMessage?_updateFirst st sid₂ (metaUpd p now)
        (fun _ => rfl) sid mid m m' s hs hmsg hm' with he | hf
    · subst he
      exact ⟨fun h => h, fun h => h⟩
    · have hf2 : s.messages.find? (fun x => x.id == mid) = some m' := hf
      rw [hmsg] at hf2
      have he := Option.some.inj hf2
      subst he
      exact ⟨fun h => h, fun h => h⟩
  | setSessionStatus sid₂ now =>
    simp only [applyOp, setSessionStatus] at hm'
    rcases getMessage?_updateFirst st sid₂ (statusUpd now)
        (fun _ => rfl) sid mid m m' s hs hmsg hm' with he | hf
    · subst he
      exact ⟨fun h => h, fun h => h⟩
    · have hf2 : s.messages.find? (fun x => x.id == mid) = some m' := hf
      rw [hmsg] at hf2
      have he := Option.some.inj hf2
      subst he
      exact ⟨fun h => h, fun h => h⟩
  | toggleTaggedImage sid₂ path now =>
    simp only [applyOp, toggleTaggedImage] at hm'
    rcases getMessage?_updateFirst st sid₂ (toggleUpd path now)
        (fun _ => rfl) sid mid m m' s hs hmsg hm' with he | hf
    · subst he
      exact ⟨fun h => h, fun h => h⟩
    · have hf2 : s.messages.find? (fun x => x.id == mid) = some m' := hf
      rw [hmsg] at hf2
      have he := Option.some.inj hf2
      subst he
      exact ⟨fun h => h, fun h => h⟩
  | clearTaggedImages sid₂ now =>
    simp only [applyOp, clearTaggedImages] at hm'
    rcases getMessage?_updateFirst st sid₂ (clearUpd now)
        (fun _ => rfl) sid mid m m' s hs hmsg hm' with he | hf
    · subst he
      exact ⟨fun h => h, fun h => h⟩
    · have hf2 : s.messages.find? (fun x => x.id == mid) = some m' := hf
      rw [hmsg] at hf2
      have he := Option.some.inj hf2
      subst he
      exact ⟨fun h => h, fun h => h⟩
  | setSessionLoading sid₂ b now =>
    simp only [applyOp, setSessionLoading] at hm'
    rcases getMessage?_updateFirst st sid₂ (loadingUpd b now)
        (fun _ => rfl) sid mid m m' s hs hmsg hm' with he | hf
    · subst he
      exact ⟨fun h => h, fun h => h⟩
    · have hf2 : s.messages.find? (fun x => x.id == mid) = some m' := hf
      rw [hmsg] at hf2
      have he := Option.some.inj hf2
      subst he
      exact ⟨fun h => h, fun h => h⟩
  | markMessageTyped sid₂ mid₂ =>
    simp only [applyOp, markMessageTyped] at hm'
    rcases getMessage?_updateFirst st sid₂ (typedUpd mid₂)
        (fun _ => rfl) sid mid m m' s hs hmsg hm' with he | hf
    · subst he
      exact ⟨fun h => h, fun h => h⟩
    · have hf2 : (updateFirstBy ChatMessage.id mid₂ (fun x => { x with typed := true })
          s.messages).find? (fun x => x.id == mid) = some m' := hf
      rcases find?_message_updateFirst mid₂ mid (fun x => { x with typed := true })
          (fun _ => rfl) s.messages m m' hmsg hf2 with he | he
      · subst he
        exact ⟨fun h => h, fun h => h⟩
      · subst he
        exact ⟨fun _ => rfl, fun h => h⟩
  | markMessageAnimated sid₂ mid₂ =>
    simp only [applyOp, markMessageAnimated] at hm'
    rcases getMessage?_updateFirst st sid₂ (animatedUpd mid₂)
        (fun _ => rfl) sid mid m m' s hs hmsg hm' with he | hf
    · subst he
      exact ⟨fun h => h, fun h => h⟩
    · have hf2 : (updateFirstBy ChatMessage.id mid₂ (fun x => { x with animated := true })
          s.messages).find? (fun x => x.id == mid) = some m' := hf
      rcases find?_message_updateFirst mid₂ mid (fun x => { x with animated := true })
          (fun _ => rfl) s.messages m m' hmsg hf2 with he | he
      · subst he
        exact ⟨fun h => h, fun h => h⟩
      · subst he
        exact ⟨fun h => h, fun _ => rfl⟩

/-- Witness for C2: a concrete already-typed message stays typed across a
concrete store operation. -/
theorem C2_settlement_flags_monotonic_witness :
    ChatMessage.typed
      { id := "m2", role := Role.model, content := "hi",
        images := [{ path := "p2", data := "BBB" }], animated := false,
        typed := true, createdAt := 2 } = true := by
  have h := C2_settlement_flags_monotonic (Op.setSessionStatus "s1" 9) demoState
    "s1" "m2"
    { id := "m2", role := Role.model, content := "hi",
      images := [{ path := "p2", data := "BBB" }], animated := false,
      typed := true, createdAt := 2 }
    { id := "m2", role := Role.model, content := "hi",
      images := [{ path := "p2", data := "BBB" }], animated := false,
      typed := true, createdAt := 2 }
    (by decide) (by decide)
  exact h.1 rfl

/-- Session lookup through each tag reducer reads the updated session. -/
theorem getSession?_toggleTaggedImage (st : ChatState) (sid x : String) (now : Nat) :
    getSession? (toggleTaggedImage sid x now st) sid
      = (getSession? st sid).map (toggleUpd x now) :=
  (getSession?_updateFirst st sid (toggleUpd x now) (fun _ => rfl)).1

/-- Session lookup through the clear reducer reads the cleared session. -/
theorem getSession?_clearTaggedImages (st : ChatState) (sid : String) (now : Nat) :
    getSession? (clearTaggedImages sid now st) sid
      = (getSession? st sid).map (clearUpd now) :=
  (getSession?_updateFirst st sid (clearUpd now) (fun _ => rfl)).1

/-- Session lookup through the loading reducer reads the updated session. -/
theorem getSession?_setSessionLoading (st : ChatState) (sid : String) (b : Bool)
    (now : Nat) :
    getSession? (setSessionLoading sid b now st) sid
      = (getSession? st sid).map (loadingUpd b now) :=
  (getSession?_updateFirst st sid (loadingUpd b now) (fun _ => rfl)).1

/-- Session lookup through the user-message reducer reads the appended
session. -/
theorem getSession?_addUserMessage (st : ChatState) (sid content : String)
    (images : List ChatImage) (msgId : String) (now : Nat) :
    getSession? (addUserMessage sid content images msgId now st) sid
      = (getSession? st sid).map (userMsgUpd content images msgId now) :=
  (getSession?_updateFirst st sid (userMsgUpd content images msgId now)
    (fun _ => rfl)).1

/-- Toggling the same path twice preserves the members of a duplicate-free
tag list. -/
theorem toggleTagList_twice_mem (l : List String) (x : String)
    (hnd : l.Nodup) (y : String) :
    y ∈ toggleTagList (toggleTagList l x) x ↔ y ∈ l := by
  by_cases hx : x ∈ l
  · have h1 : toggleTagList l x = l.erase x := if_pos hx
    have hx2 : x ∉ l.erase x := fun hc => ((List.Nodup.mem_erase_iff hnd).mp hc).1 rfl
    rw [h1, toggleTagList, if_neg hx2]
    simp only [List.mem_append, List.mem_singleton, List.Nodup.mem_erase_iff hnd]
    constructor
    · rintro (⟨hne, hy⟩ | rfl)
      · exact hy
      · exact hx
    · intro hy
      by_cases hyx : y = x
      · right; exact hyx
      · left; exact ⟨hyx, hy⟩
  · have h1 : toggleTagList l x = l ++ [x] := if_neg hx
    have hx2 : x ∈ l ++ [x] := List.mem_append_right _ (List.mem_singleton.mpr rfl)
    rw [h1, toggleTagList, if_pos hx2]
    rw [List.erase_append_right _ hx]
    simp

/-- Claim C6: for a session whose tag list is duplicate-free (as the tag
subsystem maintains), toggling the same image id twice returns the tag set
to its prior membership, and clearing empties it regardless of prior size. -/
theorem C6_tag_round_trip (st : ChatState) (sid x : String) (n1 n2 n3 : Nat)
    (s : Session) (hs : getSession? st sid = some s)
    (hnd : s.related_images.Nodup) :
    (∃ t, getSession? (toggleTaggedImage sid x n2 (toggleTaggedImage sid x n1 st)) sid
        = some t ∧ ∀ y, y ∈ t.related_images ↔ y ∈ s.related_images) ∧
    (∃ u, getSession? (clearTaggedImages sid n3 st) sid = some u ∧
        u.related_images = []) := by
  constructor
  · refine ⟨toggleUpd x n2 (toggleUpd x n1 s), ?_, ?_⟩
    · rw [getSession?_toggleTaggedImage, getSession?_toggleTaggedImage, hs]
      rfl
    · intro y
      show y ∈ toggleTagList (toggleTagList s.related_images x) x ↔
        y ∈ s.related_images
      exact toggleTagList_twice_mem s.related_images x hnd y
  · refine ⟨clearUpd n3 s, ?_, rfl⟩
    rw [getSession?_clearTaggedImages, hs]
    rfl

/-- Witness for C6 at a concrete two-tag session. -/
theorem C6_tag_round_trip_witness :
    (getSession? (clearTaggedImages "s1" 12 demoState) "s1").map
        (fun t => t.related_images) = some [] := by
  obtain ⟨u, hu, hru⟩ := (C6_tag_round_trip demoState "s1" "p3" 10 11 12 demoSession
    (by decide) (by decide)).2
  rw [hu]
  simp [hru]

/-- Claim C7 counterexample: with tag list p1 and no messages at all, the id
p1 resolves to no payload and is dropped from the user message's attached
images, yet it still appears verbatim in the outgoing request's
related_images, contrary to the claim. -/
theorem C7_counterexample :
    (sendMessageSync c7State "s1" "hi" "m1" 5).2.map
        (fun p => p.related_images) = some ["p1"] ∧
    resolveTagged [] "p1" = { path := "", data := "" } ∧
    (getSession? (sendMessageSync c7State "s1" "hi" "m1" 5).1 "s1").map
        (fun t => t.messages.map (fun m => m.images)) = some [[]] :=
  ⟨by decide, rfl, by decide⟩

/-- Claim C7 as amended: at send time each tagged id is resolved by
scanning the session's messages in order and taking the first image whose
path matches; an id with no resolvable payload is dropped (not an error)
from the images attached to the locally appended user message; the
outgoing request's related_images however carries the tag list verbatim,
unresolvable ids included. -/
theorem C7_send_resolution (st : ChatState) (sid text msgId : String) (now : Nat)
    (s : Session)
    (hfind : st.sessions.find? (fun x => x.id == sid) = some s)
    (hload : s.loading = false) :
    (∃ stF p, sendMessageSync st sid text msgId now = (stF, some p) ∧
       p.related_images = s.related_images ∧
       (∃ t, getSession? stF sid = some t ∧
          t.messages = s.messages ++
            [mkUserMessage text
              ((s.related_images.map (fun q => resolveTagged s.messages q)).filter
                (fun it => !(it.path == ""))) msgId now])) ∧
    (∀ q, resolveTagged [] q = { path := "", data := "" }) ∧
    (∀ (msg : ChatMessage) (rest : List ChatMessage) (q : String)
        (found : ChatImage),
        msg.images.find? (fun img => img.path == q) = some found →
        resolveTagged (msg :: rest) q = { path := found.path, data := found.data }) ∧
    (∀ (msg : ChatMessage) (rest : List ChatMessage) (q : String),
        msg.images.find? (fun img => img.path == q) = none →
        resolveTagged (msg :: rest) q = resolveTagged rest q) := by
  have hs : getSession? st sid = some s := hfind
  have hsend : sendMessageSync st sid text msgId now =
      (addUserMessage sid text
         ((s.related_images.map (fun q => resolveTagged s.messages q)).filter
           (fun it => !(it.path == ""))) msgId now
         (clearTaggedImages sid now (setSessionLoading sid true now st)),
       some { prev_context := s.prev_context
              message_history := s.messages.map (fun m => (m.role, m.content))
              query := text
              was_context_valid_old := s.was_context_valid_old
              is_follow_up_old := s.is_follow_up_old
              related_images := s.related_images }) := by
    unfold sendMessageSync
    rw [hfind]
    simp [hload]
  refine ⟨⟨_, _, hsend, rfl, ?_⟩, fun q => rfl, ?_, ?_⟩
  · refine ⟨userMsgUpd text
      ((s.related_images.map (fun q => resolveTagged s.messages q)).filter
        (fun it => !(it.path == ""))) msgId now
      (clearUpd now (loadingUpd true now s)), ?_, rfl⟩
    rw [getSession?_addUserMessage, getSession?_clearTaggedImages,
      getSession?_setSessionLoading, hs]
    rfl
  · intro msg rest q found hfound
    simp [resolveTagged, hfound]
  · intro msg rest q hnone
    simp [resolveTagged, hnone]

/-- Witness for the amended C7 at a concrete state with an unresolvable
tagged id. -/
theorem C7_send_resolution_witness :
    (sendMessageSync c7State "s1" "hi" "m1" 5).2.map
        (fun p => p.related_images) = some ["p1"] := by
  obtain ⟨⟨stF, p, hsend, hrel, _⟩, _, _, _⟩ :=
    C7_send_resolution c7State "s1" "hi" "m1" 5 c7Session (by decide) (by decide)
  rw [hsend]
  simp [hrel]
  rfl

/-- A reveal-loop frame never touches the one-shot guard or the dispatch
counter. -/
theorem typingStep_dispatch_fields (content : List Char) (st : TypingState)
    (time rand : ℚ) :
    ((typingStep content st time rand).1).dispatchedMark = st.dispatchedMark ∧
    ((typingStep content st time rand).1).dispatchCount = st.dispatchCount := by
  simp only [typingStep]
  by_cases h1 : perturbedDelay (currentCharOf content st.charIndex) rand ≤
      time - st.prevTime
  · rw [if_pos h1]
    split <;> exact ⟨rfl, rfl⟩
  · rw [if_neg h1]
    split <;> exact ⟨rfl, rfl⟩

/-- When a frame reports completion, it has set the visible text to the full
content and flagged completion. -/
theorem typingStep_complete (content : List Char) (st st' : TypingState)
    (time rand : ℚ) (h : typingStep content st time rand = (st', false)) :
    st'.typedText = content ∧ st'.isTypingComplete = true := by
  simp only [typingStep] at h
  split at h
  · split at h
    · exact absurd h (by simp)
    · have h1 := (Prod.ext_iff.mp h).1
      cases h1
      exact ⟨rfl, rfl⟩
  · split at h
    · exact absurd h (by simp)
    · have h1 := (Prod.ext_iff.mp h).1
      cases h1
      exact ⟨rfl, rfl⟩

/-- Driving the reveal loop never touches the guard or the counter. -/
theorem runTicks_dispatch_fields (content : List Char) (ticks : List (ℚ × ℚ)) :
    ∀ st stF b, runTicks content st ticks = (stF, b) →
      stF.dispatchedMark = st.dispatchedMark ∧
      stF.dispatchCount = st.dispatchCount := by
  induction ticks with
  | nil =>
    intro st stF b h
    simp only [runTicks] at h
    cases h
    exact ⟨rfl, rfl⟩
  | cons tr rest ih =>
    intro st stF b h
    obtain ⟨t, r⟩ := tr
    rcases htk : typingStep content st t r with ⟨st', cont⟩
    have hstep := typingStep_dispatch_fields content st t r
    rw [htk] at hstep
    cases cont with
    | true =>
      simp only [runTicks, htk] at h
      have hrest := ih st' stF b h
      exact ⟨hrest.1.trans hstep.1, hrest.2.trans hstep.2⟩
    | false =>
      simp only [runTicks, htk] at h
      cases h
      exact hstep

/-- When the loop completes, the final visible text is the full content. -/
theorem runTicks_complete_text (content : List Char) (ticks : List (ℚ × ℚ)) :
    ∀ st stF, runTicks content st ticks = (stF, true) →
      stF.typedText = content ∧ stF.isTypingComplete = true := by
  induction ticks with
  | nil =>
    intro st stF h
    simp only [runTicks] at h
    exact absurd h (by simp)
  | cons tr rest ih =>
    intro st stF h
    obtain ⟨t, r⟩ := tr
    rcases htk : typingStep content st t r with ⟨st', cont⟩
    cases cont with
    | true =>
      simp only [runTicks, htk] at h
      exact ih st' stF h
    | false =>
      simp only [runTicks, htk] at h
      cases h
      exact typingStep_complete content st stF t r htk

/-- Claim C3: for an unsettled model message with no images, when the reveal
loop runs to completion the visible text equals the full content, the settle
dispatch fires exactly once from the no-images settle path, and the one-shot
guard turns every further settle attempt, from the no-images path or from
the image-reveal completion path, into a no-op. -/
theorem C3_reveal_completeness (content : List Char) (t0 : ℚ)
    (ticks : List (ℚ × ℚ)) (stF : TypingState)
    (hrun : runTicks content (initTyping t0) ticks = (stF, true)) :
    stF.typedText = content ∧
    stF.dispatchCount = 0 ∧
    (settleAfterTyping [] stF).dispatchCount = 1 ∧
    (settleAfterTyping [] stF).dispatchedMark = true ∧
    settleAfterTyping [] (settleAfterTyping [] stF) = settleAfterTyping [] stF ∧
    imageRevealComplete false true (settleAfterTyping [] stF) =
      settleAfterTyping [] stF := by
  have htext := runTicks_complete_text content ticks (initTyping t0) stF hrun
  have hfields := runTicks_dispatch_fields content ticks (initTyping t0) stF true hrun
  have hmark : stF.dispatchedMark = false := hfields.1
  have hcount : stF.dispatchCount = 0 := hfields.2
  have hsettle : settleAfterTyping [] stF =
      { stF with dispatchedMark := true, dispatchCount := stF.dispatchCount + 1 } := by
    simp [settleAfterTyping, hmark]
  refine ⟨htext.1, hcount, ?_, ?_, ?_, ?_⟩
  · rw [hsettle]
    simp [hcount]
  · rw [hsettle]
  · rw [hsettle]
    simp [settleAfterTyping]
  · rw [hsettle]
    simp [imageRevealComplete]

/-- Witness for C3 on the two-character content ab with two frames. -/
theorem C3_reveal_completeness_witness :
    (settleAfterTyping []
      { charIndex := 2, typedText := ['a', 'b'], prevTime := 250,
        isTypingComplete := true, showImages := false, dispatchedMark := false,
        dispatchCount := 0 }).dispatchCount = 1 ∧
    TypingState.typedText
      { charIndex := 2, typedText := ['a', 'b'], prevTime := 250,
        isTypingComplete := true, showImages := false, dispatchedMark := false,
        dispatchCount := 0 } = ['a', 'b'] := by
  have h := C3_reveal_completeness ['a', 'b'] 0 [(100, 1 / 2), (250, 1 / 2)]
    { charIndex := 2, typedText := ['a', 'b'], prevTime := 250,
      isTypingComplete := true, showImages := false, dispatchedMark := false,
      dispatchCount := 0 }
    (by
      norm_num [runTicks, typingStep, perturbedDelay, currentCharOf, baseDelay,
        initTyping]
      decide)
  exact ⟨h.2.2.1, h.1⟩

/-- Claim C8: the base per-character delay is 100 time units after sentence
punctuation, 40 after comma or semicolon, 8 after a space, 60 after a
newline, and 12 otherwise; the delay actually used differs from the base by
at most an eighth of the base (plus-minus 12.5 percent) for any unit-range
pseudo-random sample; and the cursor advances by exactly one character when
a frame satisfies the delay, and not at all otherwise. -/
theorem C8_delay_table_and_jitter :
    (baseDelay (some '.') = 100 ∧ baseDelay (some '!') = 100 ∧
     baseDelay (some '?') = 100 ∧ baseDelay (some ',') = 40 ∧
     baseDelay (some ';') = 40 ∧ baseDelay (some ' ') = 8 ∧
     baseDelay (some '\n') = 60) ∧
    (∀ c : Char, c ≠ '.' → c ≠ '!' → c ≠ '?' → c ≠ ',' → c ≠ ';' → c ≠ ' ' →
      c ≠ '\n' → baseDelay (some c) = 12) ∧
    (∀ (c : Option Char) (rand : ℚ), 0 ≤ rand → rand < 1 →
      |perturbedDelay c rand - baseDelay c| ≤ baseDelay c / 8) ∧
    (∀ (content : List Char) (st : TypingState) (time rand : ℚ),
      (perturbedDelay (currentCharOf content st.charIndex) rand ≤ time - st.prevTime →
        ((typingStep content st time rand).1).charIndex = st.charIndex + 1) ∧
      (time - st.prevTime < perturbedDelay (currentCharOf content st.charIndex) rand →
        ((typingStep content st time rand).1).charIndex = st.charIndex)) := by
  refine ⟨⟨by decide, by decide, by decide, by decide, by decide, by decide,
    by decide⟩, ?_, ?_, ?_⟩
  · intro c h1 h2 h3 h4 h5 h6 h7
    simp [baseDelay, h1, h2, h3, h4, h5, h6, h7]
  · intro c rand h0 h1
    have hb : (0 : ℚ) ≤ baseDelay c := by
      rcases c with _ | c
      · norm_num [baseDelay]
      · simp only [baseDelay]
        split_ifs <;> norm_num
    have habs : |rand - 1 / 2| ≤ 1 / 2 := by
      rw [abs_le]
      constructor <;> linarith
    have hdiff : perturbedDelay c rand - baseDelay c =
        (rand - 1 / 2) * (baseDelay c * (1 / 4)) := by
      unfold perturbedDelay
      ring
    rw [hdiff, abs_mul]
    rw [abs_of_nonneg (mul_nonneg hb (by norm_num))]
    calc |rand - 1 / 2| * (baseDelay c * (1 / 4))
        ≤ (1 / 2) * (baseDelay c * (1 / 4)) :=
          mul_le_mul_of_nonneg_right habs (mul_nonneg hb (by norm_num))
      _ = baseDelay c / 8 := by ring
  · intro content st time rand
    constructor
    · intro h
      simp only [typingStep]
      rw [if_pos h]
      split <;> rfl
    · intro h
      simp only [typingStep]
      rw [if_neg (not_le.mpr h)]
      split <;> rfl

/-- Witness for C8: the default base delay at a plain character and the
jitter bound at a concrete sample. -/
theorem C8_delay_table_and_jitter_witness :
    baseDelay (some 'x') = 12 ∧
    |perturbedDelay (some '.') (3 / 4) - baseDelay (some '.')| ≤
      baseDelay (some '.') / 8 := by
  have h := C8_delay_table_and_jitter
  exact ⟨h.2.1 'x' (by decide) (by decide) (by decide) (by decide) (by decide)
      (by decide) (by decide),
    h.2.2.1 (some '.') (3 / 4) (by norm_num) (by norm_num)⟩

/-- Claim C9: a scroll command is issued at a timer firing only when the
enabled flag holds at that very instant, whatever it was at scheduling
time; a notification that schedules cancels any pending timer, which can
then never fire; and in particular a timer scheduled while enabled issues
no scroll if the flag has been dropped by the time it fires. -/
theorem C9_auto_follow_suppression (st : ScrollState) :
    (st.enabled = false → ∀ id, (scrollStep st (.fire id)).scrolls = st.scrolls) ∧
    (∀ ev, (scrollStep st ev).scrolls = st.scrolls ∨
       ((scrollStep st ev).scrolls = st.scrolls + 1 ∧
        ∃ id, ev = ScrollEvent.fire id ∧ st.enabled = true ∧
          st.pending = some id)) ∧
    (st.enabled = true → scrollInv st → ∀ old, st.pending = some old →
       (scrollStep st .notify).pending = some st.nextTimer ∧
       (scrollStep st .notify).pending ≠ some old) ∧
    (st.enabled = true →
       (scrollStep (scrollStep (scrollStep st .notify) (.setEnabled false))
           (.fire st.nextTimer)).scrolls =
         (scrollStep (scrollStep st .notify) (.setEnabled false)).scrolls) := by
  refine ⟨?_, ?_, ?_, ?_⟩
  · intro hen id
    simp only [scrollStep]
    split
    · simp [hen]
    · rfl
  · intro ev
    cases ev with
    | setEnabled b =>
      left
      rfl
    | notify =>
      left
      simp only [scrollStep]
      split <;> rfl
    | fire id =>
      simp only [scrollStep]
      by_cases hp : st.pending = some id
      · rw [if_pos hp]
        by_cases hen : st.enabled = true
        · right
          exact ⟨by simp [hen], id, rfl, hen, hp⟩
        · left
          simp only [Bool.not_eq_true] at hen
          simp [hen]
      · rw [if_neg hp]
        left
        rfl
  · intro hen hinv old hold
    have hnp : (scrollStep st .notify).pending = some st.nextTimer := by
      simp [scrollStep, hen]
    refine ⟨hnp, ?_⟩
    rw [hnp]
    intro hc
    have hlt := hinv old hold
    simp only [Option.some.injEq] at hc
    omega
  · intro hen
    simp [scrollStep, hen]

/-- Witness for C9: a disabled-at-fire instant issues no scroll, and an
enabled notification replaces the pending timer. -/
theorem C9_auto_follow_suppression_witness :
    (scrollStep { enabled := false, pending := some 5, nextTimer := 6, scrolls := 3 }
      (.fire 5)).scrolls = 3 ∧
    (scrollStep { enabled := true, pending := some 0, nextTimer := 1, scrolls := 0 }
      .notify).pending = some 1 := by
  have h1 := C9_auto_follow_suppression
    { enabled := false, pending := some 5, nextTimer := 6, scrolls := 3 }
  have h2 := C9_auto_follow_suppression
    { enabled := true, pending := some 0, nextTimer := 1, scrolls := 0 }
  refine ⟨h1.1 rfl 5, ?_⟩
  exact (h2.2.2.1 rfl
    (by
      intro id hid
      simp only [Option.some.injEq] at hid
      subst hid
      decide) 0 rfl).1

end ChatSpec
